import Mathlib

/-!
Verification development for the blockchain-sim discrete-event simulator.

The Rust source is embedded shallowly:
* machine integers (i64, i32, usize) are modelled as Int / Nat;
* f64 arithmetic is modelled over the exact rationals (Rat); the cast
  `x as i64` (truncation toward zero) is `f64_as_i64`;
* Rust i64 division and remainder truncate toward zero, hence Int.tdiv
  and Int.tmod;
* code that can panic (unwrap, out-of-range indexing) returns Option,
  with none standing for the panic;
* the injected RNG is an oracle: a list of pre-drawn samples consumed
  in program order.
-/

namespace BlockchainSim

/-- Truncation of an f64 value toward zero when cast with `as i64`
(saturation at the i64 range is not modelled). -/
def f64_as_i64 (q : ℚ) : Int := if q < 0 then ⌈q⌉ else ⌊q⌋

/-- TieBreakingRule from src/types.rs (same enum in src/main.rs). -/
inductive TieBreakingRule where
  | Longest
  | Random
  | Time
deriving DecidableEq

/-- Block from src/block.rs; the struct Block in src/main.rs has the same
fields. BlockId (a usize newtype) is Nat. -/
structure Block where
  height : Int
  prev_block_id : Option Nat
  minter : Int
  time : Int
  rand : Int
  id : Nat
  difficulty : ℚ
  mining_time : Int
deriving DecidableEq

/-- Block::genesis from src/block.rs: height 0, no parent, sentinel
minter -1, the protocol's default difficulty. -/
def Block.genesis (default_difficulty : ℚ) : Block :=
  { height := 0
    prev_block_id := none
    minter := -1
    time := 0
    rand := 0
    id := 0
    difficulty := default_difficulty
    mining_time := 0 }

/-- Blockchain pool from src/blockchain.rs: a vector of blocks indexed by
block id. -/
structure Blockchain where
  blocks : List Block
deriving DecidableEq

/-- Blockchain::get_block from src/blockchain.rs: self.blocks.get(id.0). -/
def Blockchain.get_block (bc : Blockchain) (id : Nat) : Option Block :=
  bc.blocks.get? id

/-- Env: the read-only view handed to strategies (fields as used in
src/mining_strategy.rs: the blockchain pool and the node count). -/
structure Env where
  blockchain : Blockchain
  num_nodes : Nat

/-- Action from src/mining_strategy.rs. -/
inductive Action where
  | Propagate (block_id : Nat) (to_node : Nat)
  | RestartMining (prev_block_id : Nat)
deriving DecidableEq

/-- longest_chain from src/mining_strategy.rs lines 4-20, kept verbatim:
the first branch takes height1 >= height2, so the final rand comparison
is dead code (heights equal already satisfies the first branch). -/
def longest_chain (env : Env) (block1_id block2_id : Nat) : Option Nat := do
  let block1 ← env.blockchain.get_block block1_id
  let block2 ← env.blockchain.get_block block2_id
  let height1 := block1.height
  let height2 := block2.height
  if height1 ≥ height2 then
    pure block1_id
  else if height1 < height2 then
    pure block2_id
  else
    if block1.rand > block2.rand then pure block1_id else pure block2_id

/-- HonestMiningStrategy state from src/mining_strategy.rs. -/
structure HonestMiningStrategy where
  current_block_id : Nat
deriving DecidableEq

/-- HonestMiningStrategy::default: starts on the genesis block. -/
def HonestMiningStrategy.default : HonestMiningStrategy :=
  { current_block_id := 0 }

/-- HonestMiningStrategy::on_receiving_block from src/mining_strategy.rs
lines 99-118: update the tip through longest_chain, restart mining only
when the tip changed. -/
def HonestMiningStrategy.on_receiving_block (st : HonestMiningStrategy)
    (block_id : Nat) (env : Env) :
    Option (HonestMiningStrategy × List Action) := do
  let old_chain := st.current_block_id
  let new_id ← longest_chain env st.current_block_id block_id
  let st1 : HonestMiningStrategy := { current_block_id := new_id }
  if old_chain = st1.current_block_id then
    pure (st1, [])
  else
    pure (st1, [Action.RestartMining st1.current_block_id])

/-- HonestMiningStrategy::on_mining_block from src/mining_strategy.rs
lines 78-97: propagate the new block to every node, then restart mining
on it. -/
def HonestMiningStrategy.on_mining_block (st : HonestMiningStrategy)
    (block_id : Nat) (env : Env) :
    Option (HonestMiningStrategy × List Action) :=
  some (st, ((List.range env.num_nodes).map
      (fun node => Action.Propagate block_id node))
    ++ [Action.RestartMining block_id])

/-- SelfishMiningStrategy state from src/mining_strategy.rs. -/
structure SelfishMiningStrategy where
  public_chain : Nat
  private_chain : Nat
  private_branch_len : Nat
deriving DecidableEq

/-- Loop of SelfishMiningStrategy::get_private_branch, lines 146-152:
each iteration pushes current_id, fetches the block, steps to its
parent, and then pushes block.id() (which is the id just used for the
fetch) a second time. -/
def get_private_branch_loop (env : Env) :
    Nat → Nat → List Nat → Option (List Nat)
  | 0, _, acc => some acc
  | n + 1, current_id, acc => do
    let block ← env.blockchain.get_block current_id
    let prev ← block.prev_block_id
    get_private_branch_loop env n prev (acc ++ [current_id, block.id])

/-- SelfishMiningStrategy::get_private_branch from src/mining_strategy.rs
lines 143-155. -/
def SelfishMiningStrategy.get_private_branch (st : SelfishMiningStrategy)
    (env : Env) : Option (List Nat) :=
  get_private_branch_loop env st.private_branch_len st.private_chain []

/-- SelfishMiningStrategy::get_last_private_block. -/
def SelfishMiningStrategy.get_last_private_block
    (st : SelfishMiningStrategy) : Nat :=
  st.private_chain

/-- Loop of SelfishMiningStrategy::get_first_unpublished_private_block,
lines 163-166: step to the parent private_branch_len times. -/
def first_unpublished_loop (env : Env) : Nat → Nat → Option Nat
  | 0, current_id => some current_id
  | n + 1, current_id => do
    let block ← env.blockchain.get_block current_id
    let prev ← block.prev_block_id
    first_unpublished_loop env n prev

/-- SelfishMiningStrategy::get_first_unpublished_private_block from
src/mining_strategy.rs lines 161-168. -/
def SelfishMiningStrategy.get_first_unpublished_private_block
    (st : SelfishMiningStrategy) (env : Env) : Option Nat :=
  first_unpublished_loop env st.private_branch_len st.private_chain

/-- SelfishMiningStrategy::on_mining_block from src/mining_strategy.rs
lines 176-221. -/
def SelfishMiningStrategy.on_mining_block (st : SelfishMiningStrategy)
    (block_id : Nat) (env : Env) :
    Option (SelfishMiningStrategy × List Action) := do
  let private_block ← env.blockchain.get_block st.private_chain
  let public_block ← env.blockchain.get_block st.public_chain
  let delta_prev : Int := private_block.height - public_block.height
  let st1 : SelfishMiningStrategy :=
    { st with
      private_chain := block_id
      private_branch_len := st.private_branch_len + 1 }
  if delta_prev = 0 ∧ st1.private_branch_len = 2 then
    let branch ← st1.get_private_branch env
    let propagations := (branch.map (fun private_block_id =>
      (List.range env.num_nodes).map
        (fun other_node => Action.Propagate private_block_id other_node))).flatten
    pure ({ st1 with private_branch_len := 0 },
      propagations ++ [Action.RestartMining st1.private_chain])
  else
    pure (st1, [Action.RestartMining st1.private_chain])

/-- SelfishMiningStrategy::on_receiving_block from src/mining_strategy.rs
lines 223-287. -/
def SelfishMiningStrategy.on_receiving_block (st : SelfishMiningStrategy)
    (block_id : Nat) (env : Env) :
    Option (SelfishMiningStrategy × List Action) := do
  let private_block ← env.blockchain.get_block st.private_chain
  let public_block ← env.blockchain.get_block st.public_chain
  let delta_prev : Int := private_block.height - public_block.height
  let new_public ← longest_chain env st.public_chain block_id
  let st1 : SelfishMiningStrategy := { st with public_chain := new_public }
  if delta_prev ≤ 0 then
    pure ({ st1 with
        private_chain := st1.public_chain
        private_branch_len := 0 },
      [Action.RestartMining st1.public_chain])
  else if delta_prev = 1 then
    let published_block_id := st1.get_last_private_block
    pure (st1, (List.range env.num_nodes).map
      (fun other_node => Action.Propagate published_block_id other_node))
  else if delta_prev = 2 then
    let branch ← st1.get_private_branch env
    let propagations := (branch.map (fun private_block_id =>
      (List.range env.num_nodes).map
        (fun other_node => Action.Propagate private_block_id other_node))).flatten
    pure ({ st1 with private_branch_len := 0 }, propagations)
  else
    let published_block_id ← st1.get_first_unpublished_private_block env
    pure (st1, (List.range env.num_nodes).map
      (fun other_node => Action.Propagate published_block_id other_node))

/-- BitcoinProtocol::default_difficulty from src/protocol.rs. -/
def BitcoinProtocol.default_difficulty : ℚ := 1

/-- Walk of BitcoinProtocol::calculate_difficulty, src/protocol.rs lines
40-48: step to the parent block n times, failing (panic) when a parent
is missing. -/
def btc_epoch_walk (env : Env) : Nat → Block → Option Block
  | 0, block => some block
  | n + 1, block => do
    let block_id ← block.prev_block_id
    let block2 ← env.blockchain.get_block block_id
    btc_epoch_walk env n block2

/-- BitcoinProtocol::calculate_difficulty from src/protocol.rs lines
32-63. BTC_DAA_EPOCH = 2016, BTC_TARGET_GENERATION_TIME = 600000 ms;
the ratio is clamped into the interval from 0.25 to 4.0. Rust i64
remainder (truncated) is Int.tmod. -/
def BitcoinProtocol.calculate_difficulty (parent_block : Block)
    (current_time : Int) (env : Env) : Option ℚ :=
  let parent_difficulty := parent_block.difficulty
  let new_height := parent_block.height + 1
  if Int.tmod new_height 2016 = 0 ∧ 2016 ≤ new_height then do
    let start_block ← env.blockchain.get_block parent_block.id
    let first_block_in_epoch ← btc_epoch_walk env 2015 start_block
    let average_generation_time : ℚ :=
      ((current_time - first_block_in_epoch.time : Int) : ℚ)
        / ((2016 - 1 : Int) : ℚ)
    let ratio : ℚ := average_generation_time / (600000 : ℚ)
    let clamped : ℚ := min (max ratio (1 / 4)) 4
    pure (parent_difficulty / clamped)
  else
    pure parent_difficulty

/-- EthereumProtocol::default_difficulty from src/protocol.rs: 2 to the
power 32. -/
def EthereumProtocol.default_difficulty : ℚ := 2 ^ 32

/-- EthereumProtocol::calculate_difficulty from src/protocol.rs lines
86-120. The i64 divisions (ms to s, and by 10) truncate toward zero
(Int.tdiv); the casts of f64 to i64 are f64_as_i64. -/
def EthereumProtocol.calculate_difficulty (parent_block : Block)
    (_current_time : Int) (env : Env) : Option ℚ :=
  if parent_block.height = 0 then
    some EthereumProtocol.default_difficulty
  else do
    let grand_parent_block_id ← parent_block.prev_block_id
    let grand_parent_block ← env.blockchain.get_block grand_parent_block_id
    let time_diff :=
      Int.tdiv (parent_block.time - grand_parent_block.time) 1000
    let adjustment_factor := max (1 - Int.tdiv time_diff 10) (-99)
    let difficulty_adjustment :=
      f64_as_i64 (parent_block.difficulty / 2048) * adjustment_factor
    let uncle_adjustment : Int := 0
    let new_difficulty :=
      f64_as_i64 parent_block.difficulty + difficulty_adjustment
        + uncle_adjustment
    pure ((new_difficulty : ℚ))

/-- Protocol enum from src/main.rs. -/
inductive Protocol where
  | Bitcoin
  | Ethereum
deriving DecidableEq

/-- TaskType from src/task.rs (identical in src/main.rs). -/
inductive TaskType where
  | BlockGeneration (minter : Nat)
  | Propagation (from_node : Nat) (to_node : Nat) (block_id : Nat)
deriving DecidableEq

/-- Task from src/task.rs (identical in src/main.rs). -/
structure Task where
  time : Int
  ty : TaskType
deriving DecidableEq

/-- The PartialEq implementation for Task, src/task.rs lines 45-49 and
src/main.rs lines 47-51: equality inspects only the time field. -/
def Task.beq (a b : Task) : Bool := a.time == b.time

/-- The record of fields read by the derived Hash implementation on Task
(src/task.rs line 3): every field, the kind included. -/
def Task.hash_fields (t : Task) : Int × TaskType := (t.time, t.ty)

/-- BlockchainSimulator state from src/main.rs lines 89-110. The StdRng
is replaced by the oracle list rng; the optional CSV writer by the
csv_enabled flag (the writer itself is output-only); the global
BLOCK_ID counter (line 327) is the field next_block_id; the priority
queue is kept as the list of pending tasks in insertion order. -/
structure BlockchainSimulator where
  current_round : Int
  current_time : Int
  delay : Int
  generation_time : Int
  tie : TieBreakingRule
  current_block : List Nat
  next_mining_time : List (Option Int)
  hashrate : List Int
  total_hashrate : Int
  end_round : Int
  num_nodes : Nat
  blocks : List Block
  rng : List ℚ
  protocol : Protocol
  csv_enabled : Bool
  csv_written_block_heights : List Int
  task_queue : List Task
  next_block_id : Nat
deriving DecidableEq

/-- BlockchainSimulator::propagation_time from src/main.rs lines
185-187: zero to oneself, the configured delay otherwise. -/
def propagation_time (s : BlockchainSimulator)
    (from_node to_node : Nat) : Int :=
  if from_node = to_node then 0 else s.delay

/-- BlockchainSimulator::choose_mainchain from src/main.rs lines 189-215
(identical logic in src/simulator.rs lines 138-162): block1 is the
arriving block, block2 the recipient's current tip. -/
def choose_mainchain (s : BlockchainSimulator) (block1_id block2_id : Nat)
    (_from_node to_node : Nat) : Option BlockchainSimulator := do
  let block1 ← s.blocks.get? block1_id
  let block2 ← s.blocks.get? block2_id
  if block1.height > block2.height then
    pure { s with current_block := s.current_block.set to_node block1_id }
  else if block1.height = block2.height then
    let s1 :=
      if s.tie = TieBreakingRule.Random ∧ block2.minter ≠ (to_node : Int)
          ∧ block1.rand < block2.rand then
        { s with current_block := s.current_block.set to_node block1_id }
      else s
    let s2 :=
      if s1.tie = TieBreakingRule.Time ∧ block2.minter ≠ (to_node : Int)
          ∧ block1.time > block2.time then
        { s1 with current_block := s1.current_block.set to_node block1_id }
      else s1
    pure s2
  else
    pure s

/-- BlockchainSimulator::cancel_next_mining_task from src/main.rs lines
391-399: clear the deadline and remove the matching BlockGeneration
task from the queue. -/
def cancel_next_mining_task (s : BlockchainSimulator) (node : Nat) :
    Option BlockchainSimulator := do
  let nmt ← s.next_mining_time.get? node
  match nmt with
  | some next_time =>
    pure { s with
      next_mining_time := s.next_mining_time.set node none
      task_queue := s.task_queue.filter (fun task =>
        !(task.ty == TaskType.BlockGeneration node
          && task.time == next_time)) }
  | none => pure s

/-- BlockchainSimulator::schedule_next_mining_task from src/main.rs
lines 402-416: draw a sample, set the deadline to time_base plus the
scaled sample, store it and enqueue the BlockGeneration task. -/
def schedule_next_mining_task (s : BlockchainSimulator) (node : Nat)
    (time_base : Int) (new_difficulty : ℚ) : Option BlockchainSimulator := do
  let hr ← s.hashrate.get? node
  let sample := s.rng.headD 0
  let s1 := { s with rng := s.rng.tail }
  let next_time := time_base
    + f64_as_i64 (sample * (s1.generation_time : ℚ) * new_difficulty
        / (hr : ℚ) * (s1.total_hashrate : ℚ))
  let task : Task := { time := next_time, ty := TaskType.BlockGeneration node }
  pure { s1 with
    next_mining_time := s1.next_mining_time.set node (some next_time)
    task_queue := s1.task_queue ++ [task] }

/-- Walk of calculate_new_difficulty_btc, src/main.rs lines 461-471:
follow parents n times, stopping early at a block with no parent. -/
def btc_first_block_walk (s : BlockchainSimulator) :
    Nat → Nat → Option Nat
  | 0, block_id => some block_id
  | n + 1, block_id => do
    let block ← s.blocks.get? block_id
    match block.prev_block_id with
    | some prev_id => btc_first_block_walk s n prev_id
    | none => some block_id

/-- BlockchainSimulator::calculate_new_difficulty_btc from src/main.rs
lines 453-497 (this revision walks 2016 parents and clamps by cases on
the unclamped ratio). -/
def calculate_new_difficulty_btc (s : BlockchainSimulator)
    (parent_block : Block) : Option ℚ :=
  let parent_difficulty := parent_block.difficulty
  let parent_height := parent_block.height
  let new_height := parent_height + 1
  if Int.tmod new_height 2016 = 0 ∧ 2016 ≤ new_height then do
    let first_block_in_epoch ← btc_first_block_walk s 2016 parent_block.id
    let fb ← s.blocks.get? first_block_in_epoch
    let average_generation_time : ℚ :=
      ((s.current_time - fb.time : Int) : ℚ)
        / ((parent_height - fb.height : Int) : ℚ)
    let ratio := average_generation_time / (s.generation_time : ℚ)
    if ratio < 1 / 2 then pure (parent_difficulty * (1 / 4))
    else if ratio > 2 then pure (parent_difficulty * 4)
    else pure (parent_difficulty / ratio)
  else
    pure parent_difficulty

/-- BlockchainSimulator::calculate_new_difficulty_eth from src/main.rs
lines 499-557 (this revision returns 1.0 for a height-0 parent, divides
the time delta by 1000000, and stays in f64 throughout). -/
def calculate_new_difficulty_eth (s : BlockchainSimulator)
    (parent_block : Block) : Option ℚ :=
  if parent_block.height = 0 then
    pure 1
  else do
    let grand_parent_block_id ← parent_block.prev_block_id
    let grand_parent_block ← s.blocks.get? grand_parent_block_id
    let time_diff :=
      Int.tdiv (parent_block.time - grand_parent_block.time) 1000000
    let adjustment_factor := max (1 - Int.tdiv time_diff 10) (-99)
    let difficulty_adjustment : ℚ :=
      parent_block.difficulty / 2048 * (adjustment_factor : ℚ)
    let uncle_adjustment : ℚ := 0
    pure (parent_block.difficulty + difficulty_adjustment
      + uncle_adjustment)

/-- BlockchainSimulator::calculate_new_difficulty from src/main.rs lines
446-451. -/
def calculate_new_difficulty (s : BlockchainSimulator)
    (parent_block : Block) : Option ℚ :=
  match s.protocol with
  | Protocol.Bitcoin => calculate_new_difficulty_btc s parent_block
  | Protocol.Ethereum => calculate_new_difficulty_eth s parent_block

/-- The non-stale part of the BlockGeneration arm of
BlockchainSimulator::simulation, src/main.rs lines 295-366: reschedule
the miner, materialise the new block, adopt it as the miner's tip and
enqueue its propagation to every other node. -/
def mine_block (s : BlockchainSimulator) (minter : Nat) :
    Option BlockchainSimulator := do
  let current_block_id ← s.current_block.get? minter
  let current_block ← s.blocks.get? current_block_id
  let next_time ← (← s.next_mining_time.get? minter)
  let s1 ← schedule_next_mining_task s minter next_time
    current_block.difficulty
  let new_deadline ← (← s1.next_mining_time.get? minter)
  let mining_time := new_deadline - s1.current_time
  let current_block_id2 ← s1.current_block.get? minter
  let current_block2 ← s1.blocks.get? current_block_id2
  let new_difficulty ← calculate_new_difficulty s1 current_block2
  let s2 :=
    if s1.csv_enabled
        && !(s1.csv_written_block_heights.contains current_block2.height)
    then { s1 with csv_written_block_heights :=
            s1.csv_written_block_heights ++ [current_block2.height] }
    else s1
  let rand_sample := s2.rng.headD 0
  let s3 := { s2 with rng := s2.rng.tail }
  let new_block : Block :=
    { height := current_block2.height + 1
      prev_block_id := some current_block_id2
      minter := (minter : Int)
      time := s3.current_time
      rand := f64_as_i64 (rand_sample * ((9223372036854775807 - 10 : Int) : ℚ))
      id := s3.next_block_id
      difficulty := new_difficulty
      mining_time := mining_time }
  let s4 := { s3 with
    blocks := s3.blocks ++ [new_block]
    next_block_id := s3.next_block_id + 1
    current_block := s3.current_block.set minter new_block.id
    current_round :=
      if s3.current_round < new_block.height then new_block.height
      else s3.current_round }
  let prop_tasks := ((List.range s4.num_nodes).filter
      (fun i => i != minter)).map (fun i =>
    ({ time := next_time + propagation_time s4 minter i
       ty := TaskType.Propagation minter i new_block.id } : Task))
  pure { s4 with task_queue := s4.task_queue ++ prop_tasks }

/-- One dispatch of the main loop of BlockchainSimulator::simulation,
src/main.rs lines 280-388, on an already popped task: set current_time
to the task's time, then run the matching arm. A BlockGeneration task
whose time does not equal the minter's next_mining_time (or whose
minter has none) is dropped (the continue in lines 287-293). A
Propagation task runs fork-choice, then unconditionally cancels and
reschedules the recipient's mining task (lines 378-385). -/
def step (s0 : BlockchainSimulator) (current_task : Task) :
    Option BlockchainSimulator :=
  let s := { s0 with current_time := current_task.time }
  match current_task.ty with
  | TaskType.BlockGeneration minter =>
    match s.next_mining_time.get? minter with
    | none => none
    | some none => some s
    | some (some task_time) =>
      if task_time ≠ current_task.time then some s
      else mine_block s minter
  | TaskType.Propagation from_node to_node block_id => do
    let _received ← s.blocks.get? block_id
    let current_block_id ← s.current_block.get? to_node
    let s1 ← choose_mainchain s block_id current_block_id from_node to_node
    let s2 ← cancel_next_mining_task s1 to_node
    let received_block ← s2.blocks.get? block_id
    let new_difficulty ← calculate_new_difficulty s2 received_block
    schedule_next_mining_task s2 to_node s2.current_time new_difficulty

/-! Concrete inputs used by the claim theorems. -/

/-- Chain of nine blocks (block i has height i and parent i-1) plus a
side block 9 of height 1; the selfish miner holds public tip 5,
private tip 8, private_branch_len 3 (so delta_prev = 3). -/
def c2Env : Env :=
  { blockchain :=
      { blocks :=
          [ { height := 0, prev_block_id := none, minter := -1, time := 0,
              rand := 0, id := 0, difficulty := 1, mining_time := 0 },
            { height := 1, prev_block_id := some 0, minter := 0, time := 1,
              rand := 0, id := 1, difficulty := 1, mining_time := 0 },
            { height := 2, prev_block_id := some 1, minter := 0, time := 2,
              rand := 0, id := 2, difficulty := 1, mining_time := 0 },
            { height := 3, prev_block_id := some 2, minter := 0, time := 3,
              rand := 0, id := 3, difficulty := 1, mining_time := 0 },
            { height := 4, prev_block_id := some 3, minter := 0, time := 4,
              rand := 0, id := 4, difficulty := 1, mining_time := 0 },
            { height := 5, prev_block_id := some 4, minter := 0, time := 5,
              rand := 0, id := 5, difficulty := 1, mining_time := 0 },
            { height := 6, prev_block_id := some 5, minter := 1, time := 6,
              rand := 0, id := 6, difficulty := 1, mining_time := 0 },
            { height := 7, prev_block_id := some 6, minter := 1, time := 7,
              rand := 0, id := 7, difficulty := 1, mining_time := 0 },
            { height := 8, prev_block_id := some 7, minter := 1, time := 8,
              rand := 0, id := 8, difficulty := 1, mining_time := 0 },
            { height := 1, prev_block_id := some 0, minter := 0, time := 9,
              rand := 0, id := 9, difficulty := 1, mining_time := 0 } ] }
    num_nodes := 2 }

/-- Selfish state for the c2 scenario: blocks 6, 7, 8 are private. -/
def c2State : SelfishMiningStrategy :=
  { public_chain := 5, private_chain := 8, private_branch_len := 3 }

/-- C2: on a receive with delta_prev = 3 (private height 8, public
height 5) the code does propagate exactly one id to every node, but the
id is block 5 — the already-public block at height h(public_tip), the
parent of the oldest private block — not the oldest still-private block
6 at height h(public_tip) + 1: get_first_unpublished_private_block
walks private_branch_len parents from the private tip, one step too
far. The public tip is unchanged by the arrival (the incoming block 9
has height 1). -/
theorem c2_selfish_delta3_publishes_fork_point :
    c2State.on_receiving_block 9 c2Env
      = some ({ public_chain := 5, private_chain := 8,
                private_branch_len := 3 },
          [Action.Propagate 5 0, Action.Propagate 5 1])
    ∧ (c2Env.blockchain.get_block c2State.private_chain).map Block.height
        = some 8
    ∧ (c2Env.blockchain.get_block c2State.public_chain).map Block.height
        = some 5
    ∧ (c2Env.blockchain.get_block 5).map Block.height = some 5
    ∧ (c2Env.blockchain.get_block 6).map Block.height = some 6
    ∧ (c2Env.blockchain.get_block 6).map Block.prev_block_id
        = some (some 5) :=
  ⟨rfl, rfl, rfl, rfl, rfl, rfl⟩

/-- Pool for the c3 scenario: genesis 0; blocks 1 and 2 compete at
height 1 (1 is the selfish miner's, 2 is public); block 3 is the newly
mined private block on top of 1. -/
def c3Env : Env :=
  { blockchain :=
      { blocks :=
          [ { height := 0, prev_block_id := none, minter := -1, time := 0,
              rand := 0, id := 0, difficulty := 1, mining_time := 0 },
            { height := 1, prev_block_id := some 0, minter := 1, time := 1,
              rand := 0, id := 1, difficulty := 1, mining_time := 0 },
            { height := 1, prev_block_id := some 0, minter := 0, time := 2,
              rand := 0, id := 2, difficulty := 1, mining_time := 0 },
            { height := 2, prev_block_id := some 1, minter := 1, time := 3,
              rand := 0, id := 3, difficulty := 1, mining_time := 0 } ] }
    num_nodes := 2 }

/-- Selfish state for the c3 scenario: delta_prev = 0 (both tips at
height 1), one private block, so mining block 3 makes
private_branch_len = 2 and triggers the publish branch. -/
def c3State : SelfishMiningStrategy :=
  { public_chain := 2, private_chain := 1, private_branch_len := 1 }

/-- C3: with delta_prev = 0 and private_branch_len = 2 after the append,
the private branch is published and the length reset, and the action
list ends with RestartMining on the new private tip — but every branch
block is propagated twice (get_private_branch pushes current_id and
then block.id(), the same id, each iteration) and the branch is
traversed newest first [3, 3, 1, 1], not oldest first [1, 3] once
each. -/
theorem c3_selfish_mining_publish_duplicated_newest_first :
    c3State.on_mining_block 3 c3Env
      = some ({ public_chain := 2, private_chain := 3,
                private_branch_len := 0 },
          [Action.Propagate 3 0, Action.Propagate 3 1,
           Action.Propagate 3 0, Action.Propagate 3 1,
           Action.Propagate 1 0, Action.Propagate 1 1,
           Action.Propagate 1 0, Action.Propagate 1 1,
           Action.RestartMining 3])
    ∧ (c3Env.blockchain.get_block c3State.private_chain).map Block.height
        = some 1
    ∧ (c3Env.blockchain.get_block c3State.public_chain).map Block.height
        = some 1
    ∧ c3State.private_branch_len = 1 :=
  ⟨rfl, rfl, rfl, rfl⟩

/-- C4: the honest strategy adopts the incoming block and restarts
mining on it exactly when the incoming height strictly exceeds the
current tip's height; otherwise the tip is unchanged and no actions are
returned. -/
theorem c4_honest_receive (st : HonestMiningStrategy) (block_id : Nat)
    (env : Env) (b c : Block)
    (hc : env.blockchain.get_block st.current_block_id = some c)
    (hb : env.blockchain.get_block block_id = some b) :
    st.on_receiving_block block_id env =
      if c.height < b.height then
        some ({ current_block_id := block_id },
          [Action.RestartMining block_id])
      else
        some (st, []) := by
  have hne : c.height < b.height → ¬ st.current_block_id = block_id := by
    intro hlt heq
    rw [heq, hb] at hc
    cases hc
    exact lt_irrefl _ hlt
  by_cases h : c.height < b.height
  · rw [if_pos h]
    simp only [HonestMiningStrategy.on_receiving_block, longest_chain,
      hc, hb, Option.bind_eq_bind, Option.some_bind, not_le.mpr h,
      ge_iff_le, if_neg, if_pos h, hne h, ite_false, ite_true]
    simp [hne h]
  · rw [if_neg h]
    have hge : b.height ≤ c.height := not_lt.mp h
    simp only [HonestMiningStrategy.on_receiving_block, longest_chain,
      hc, hb, Option.bind_eq_bind, Option.some_bind, ge_iff_le,
      if_pos hge]
    simp [hge]

/-- Pool for the c4 witness: genesis and one block of height 1. -/
def c4Env : Env :=
  { blockchain :=
      { blocks :=
          [ { height := 0, prev_block_id := none, minter := -1, time := 0,
              rand := 0, id := 0, difficulty := 1, mining_time := 0 },
            { height := 1, prev_block_id := some 0, minter := 0, time := 1,
              rand := 0, id := 1, difficulty := 1, mining_time := 0 } ] }
    num_nodes := 2 }

/-- Witness for c4_honest_receive: an honest miner on genesis receives
the height-1 block and restarts mining on it. -/
theorem c4_honest_receive_witness :
    (HonestMiningStrategy.mk 0).on_receiving_block 1 c4Env
      = some (HonestMiningStrategy.mk 1, [Action.RestartMining 1]) := by
  have h := c4_honest_receive (HonestMiningStrategy.mk 0) 1 c4Env
    { height := 1, prev_block_id := some 0, minter := 0, time := 1,
      rand := 0, id := 1, difficulty := 1, mining_time := 0 }
    { height := 0, prev_block_id := none, minter := -1, time := 0,
      rand := 0, id := 0, difficulty := 1, mining_time := 0 }
    rfl rfl
  simpa using h

/-- C7: dispatching a BlockGeneration task whose time differs from the
minter's next_mining_time, or whose minter has no deadline, changes
nothing but current_time: the returned state is the input state with
only current_time set to the task's time — no block is appended, no
task enqueued, no tip, deadline, round or counter changes, so a
duplicated BlockGeneration at a stale deadline never produces a second
child block. -/
theorem c7_stale_block_generation_dropped (s0 : BlockchainSimulator)
    (minter : Nat) (t : Int)
    (h : s0.next_mining_time.get? minter = some none
      ∨ ∃ tt : Int, s0.next_mining_time.get? minter = some (some tt)
          ∧ tt ≠ t) :
    step s0 { time := t, ty := TaskType.BlockGeneration minter }
      = some { s0 with current_time := t } := by
  rcases h with h | ⟨tt, h, hne⟩
  · simp only [step, h]
  · simp only [step, h]
    simp [hne]

/-- Simulator state for the c7 witness: one node whose pending deadline
is 5. -/
def c7State : BlockchainSimulator :=
  { current_round := 0, current_time := 0, delay := 6000,
    generation_time := 600000, tie := TieBreakingRule.Longest,
    current_block := [0], next_mining_time := [some 5],
    hashrate := [1], total_hashrate := 1, end_round := 10, num_nodes := 1,
    blocks := [{ height := 0, prev_block_id := none, minter := -1,
                 time := 0, rand := 0, id := 0, difficulty := 1,
                 mining_time := 0 }],
    rng := [1], protocol := Protocol.Bitcoin, csv_enabled := false,
    csv_written_block_heights := [], task_queue := [],
    next_block_id := 1 }

/-- Witness for c7_stale_block_generation_dropped: a duplicated
BlockGeneration at time 7 against a deadline of 5 is dropped. -/
theorem c7_stale_witness :
    step c7State { time := 7, ty := TaskType.BlockGeneration 0 }
      = some { c7State with current_time := 7 } :=
  c7_stale_block_generation_dropped c7State 0 7
    (Or.inr ⟨5, rfl, by decide⟩)

/-- Simulator state for the c9 scenario: node 1's tip is block 2
(height 2), its mining deadline is 50 with the matching
BlockGeneration task queued; block 1 (height 1) is about to arrive. -/
def c9State : BlockchainSimulator :=
  { current_round := 2, current_time := 30, delay := 6000,
    generation_time := 600000, tie := TieBreakingRule.Longest,
    current_block := [2, 2], next_mining_time := [none, some 50],
    hashrate := [1, 1], total_hashrate := 2, end_round := 10,
    num_nodes := 2,
    blocks :=
      [ { height := 0, prev_block_id := none, minter := -1, time := 0,
          rand := 0, id := 0, difficulty := 1, mining_time := 0 },
        { height := 1, prev_block_id := some 0, minter := 0, time := 10,
          rand := 0, id := 1, difficulty := 1, mining_time := 0 },
        { height := 2, prev_block_id := some 1, minter := 1, time := 20,
          rand := 0, id := 2, difficulty := 1, mining_time := 0 } ],
    rng := [1], protocol := Protocol.Bitcoin, csv_enabled := false,
    csv_written_block_heights := [],
    task_queue := [{ time := 50, ty := TaskType.BlockGeneration 1 }],
    next_block_id := 3 }

/-- The state produced by the c9 propagation: tip unchanged, yet the
deadline was cancelled and re-sampled (50 became 1200040) and the
pending BlockGeneration task was replaced. -/
def c9After : BlockchainSimulator :=
  { c9State with
    current_time := 40,
    rng := [],
    next_mining_time := [none, some 1200040],
    task_queue := [{ time := 1200040, ty := TaskType.BlockGeneration 1 }] }

/-- C9: a Propagation arrival whose block (height 1) loses fork-choice
against the recipient's tip (height 2) leaves the tip unchanged, yet
the code still cancels the pending BlockGeneration task, draws a fresh
sample and replaces next_mining_time — the cancel-and-resample in the
Propagation arm is unconditional, not gated on adopting the arrival. -/
theorem c9_propagation_resamples_unconditionally :
    step c9State { time := 40, ty := TaskType.Propagation 0 1 1 }
      = some c9After
    ∧ c9After.current_block = c9State.current_block
    ∧ c9After.next_mining_time ≠ c9State.next_mining_time
    ∧ c9After.task_queue ≠ c9State.task_queue
    ∧ (c9State.blocks.get? 1).map Block.height = some 1
    ∧ (c9State.blocks.get? 2).map Block.height = some 2 := by
  refine ⟨?_, rfl, by decide, by decide, rfl, rfl⟩
  simp only [step, choose_mainchain, cancel_next_mining_task,
    schedule_next_mining_task, calculate_new_difficulty,
    calculate_new_difficulty_btc, propagation_time, f64_as_i64,
    c9State, c9After]
  norm_num

/-- C10: equality on Task inspects only the time field — any two tasks
with equal times compare equal whatever their kinds — while the derived
hash reads the kind as well; in particular a BlockGeneration and a
Propagation at the same time are equal yet distinct and hash over
different data, so queue operations keyed by Task equality cannot tell
distinct same-time tasks apart. -/
theorem c10_task_equality_time_only :
    (∀ a b : Task, Task.beq a b = true ↔ a.time = b.time)
    ∧ Task.beq { time := 5, ty := TaskType.BlockGeneration 0 }
        { time := 5, ty := TaskType.Propagation 0 1 2 } = true
    ∧ ({ time := 5, ty := TaskType.BlockGeneration 0 } : Task)
        ≠ { time := 5, ty := TaskType.Propagation 0 1 2 }
    ∧ Task.hash_fields { time := 5, ty := TaskType.BlockGeneration 0 }
        ≠ Task.hash_fields { time := 5, ty := TaskType.Propagation 0 1 2 } := by
  refine ⟨fun a b => ?_, rfl, by decide, by decide⟩
  simp [Task.beq]

/-- Witness for c10_task_equality_time_only at two concrete tasks with
distinct minters. -/
theorem c10_task_equality_witness :
    Task.beq { time := 3, ty := TaskType.BlockGeneration 0 }
        { time := 3, ty := TaskType.BlockGeneration 1 } = true
      ↔ (3 : Int) = 3 :=
  c10_task_equality_time_only.1 _ _

/-- Simulator state for the c1 scenario: tie rule random; node 1's tip
is block 2 (height 1, rand 5, minted by node 0); block 1 (height 1,
rand 3) arrives from node 0. -/
def c1State : BlockchainSimulator :=
  { current_round := 1, current_time := 0, delay := 6000,
    generation_time := 600000, tie := TieBreakingRule.Random,
    current_block := [0, 2], next_mining_time := [none, none],
    hashrate := [1, 1], total_hashrate := 2, end_round := 10,
    num_nodes := 2,
    blocks :=
      [ { height := 0, prev_block_id := none, minter := -1, time := 0,
          rand := 0, id := 0, difficulty := 1, mining_time := 0 },
        { height := 1, prev_block_id := some 0, minter := 0, time := 8,
          rand := 3, id := 1, difficulty := 1, mining_time := 0 },
        { height := 1, prev_block_id := some 0, minter := 0, time := 5,
          rand := 5, id := 2, difficulty := 1, mining_time := 0 } ],
    rng := [], protocol := Protocol.Bitcoin, csv_enabled := false,
    csv_written_block_heights := [], task_queue := [],
    next_block_id := 3 }

/-- C1 counterexample: equal heights, tie rule random, the current tip
c (block 2) was not minted by the recipient, c.rand = 5, b.rand = 3.
The claim predicts no adoption (c.rand < b.rand is false), yet
choose_mainchain sets node 1's tip to the arriving block 1: the code
adopts exactly when b.rand < c.rand, the inverse comparison. -/
theorem c1_fork_choice_counterexample :
    (choose_mainchain c1State 1 2 0 1).map
        (fun s => s.current_block) = some [0, 1]
    ∧ c1State.tie = TieBreakingRule.Random
    ∧ (c1State.blocks.get? 1).map Block.height = some 1
    ∧ (c1State.blocks.get? 2).map Block.height = some 1
    ∧ (c1State.blocks.get? 2).map Block.minter = some 0
    ∧ (c1State.blocks.get? 1).map Block.rand = some 3
    ∧ (c1State.blocks.get? 2).map Block.rand = some 5
    ∧ ¬ ((5 : Int) < 3) :=
  ⟨rfl, rfl, rfl, rfl, rfl, rfl, rfl, by decide⟩

/-- C1 amended: on a Propagation arrival (arriving block b, current tip
c): whenever h(b) > h(c) the recipient adopts b; at equal heights with
c.minter different from the recipient, under tie=random the recipient
adopts b iff b.rand < c.rand (the lower rand wins), and under tie=time
iff c.time < b.time (the newer block wins); under tie=longest it never
switches; and at equal heights nothing but the recipient's tip entry
changes. -/
theorem c1_fork_choice_amended (s : BlockchainSimulator)
    (block1_id block2_id from_node to_node : Nat) (b c : Block)
    (hb : s.blocks.get? block1_id = some b)
    (hc : s.blocks.get? block2_id = some c) :
    (c.height < b.height →
      choose_mainchain s block1_id block2_id from_node to_node
        = some { s with
            current_block := s.current_block.set to_node block1_id })
    ∧ (b.height = c.height → s.tie = TieBreakingRule.Random →
      choose_mainchain s block1_id block2_id from_node to_node
        = some (if c.minter ≠ (to_node : Int) ∧ b.rand < c.rand
            then { s with
              current_block := s.current_block.set to_node block1_id }
            else s))
    ∧ (b.height = c.height → s.tie = TieBreakingRule.Time →
      choose_mainchain s block1_id block2_id from_node to_node
        = some (if c.minter ≠ (to_node : Int) ∧ c.time < b.time
            then { s with
              current_block := s.current_block.set to_node block1_id }
            else s))
    ∧ (b.height = c.height → s.tie = TieBreakingRule.Longest →
      choose_mainchain s block1_id block2_id from_node to_node = some s)
    ∧ (b.height < c.height →
      choose_mainchain s block1_id block2_id from_node to_node = some s) := by
  refine ⟨?_, ?_, ?_, ?_, ?_⟩
  · intro h
    simp only [choose_mainchain, hb, hc, Option.bind_eq_bind,
      Option.some_bind, Option.pure_def]
    rw [if_pos h]
  · intro h htie
    have hno : ¬ b.height > c.height := by omega
    simp only [choose_mainchain, hb, hc, Option.bind_eq_bind,
      Option.some_bind, Option.pure_def, if_neg hno, if_pos h]
    by_cases hP : c.minter ≠ (to_node : Int) ∧ b.rand < c.rand
    · simp [hP, htie]
    · simp [hP, htie]
  · intro h htie
    have hno : ¬ b.height > c.height := by omega
    simp only [choose_mainchain, hb, hc, Option.bind_eq_bind,
      Option.some_bind, Option.pure_def, if_neg hno, if_pos h]
    by_cases hP : c.minter ≠ (to_node : Int) ∧ c.time < b.time
    · simp [hP, htie]
    · simp [hP, htie]
  · intro h htie
    have hno : ¬ b.height > c.height := by omega
    simp only [choose_mainchain, hb, hc, Option.bind_eq_bind,
      Option.some_bind, Option.pure_def, if_neg hno, if_pos h]
    simp [htie]
  · intro h
    have hno : ¬ b.height > c.height := by omega
    have hne : ¬ b.height = c.height := by omega
    simp only [choose_mainchain, hb, hc, Option.bind_eq_bind,
      Option.some_bind, Option.pure_def, if_neg hno, if_neg hne]

/-- Witness for c1_fork_choice_amended: the random-tie conjunct applied
to the c1 scenario, where the arriving block (rand 3) beats the tip
(rand 5) and is adopted. -/
theorem c1_fork_choice_witness :
    choose_mainchain c1State 1 2 0 1
      = some { c1State with current_block := [0, 1] } := by
  have h := (c1_fork_choice_amended c1State 1 2 0 1
      { height := 1, prev_block_id := some 0, minter := 0, time := 8,
        rand := 3, id := 1, difficulty := 1, mining_time := 0 }
      { height := 1, prev_block_id := some 0, minter := 0, time := 5,
        rand := 5, id := 2, difficulty := 1, mining_time := 0 }
      rfl rfl).2.1 rfl rfl
  rw [if_pos (by decide)] at h
  exact h

/-- The epoch guard of both Bitcoin difficulty functions is exactly
membership of the positive multiples of 2016. -/
lemma epoch_cond_iff (n : Int) :
    (Int.tmod n 2016 = 0 ∧ 2016 ≤ n) ↔ ∃ k : Int, 1 ≤ k ∧ n = 2016 * k := by
  constructor
  · rintro ⟨hm, hg⟩
    rw [Int.tmod_eq_emod (by omega) (by norm_num)] at hm
    obtain ⟨k, hk⟩ := Int.dvd_of_emod_eq_zero hm
    refine ⟨k, by linarith [hk ▸ hg], hk⟩
  · rintro ⟨k, hk1, rfl⟩
    constructor
    · rw [Int.tmod_eq_emod (by linarith) (by norm_num)]
      exact Int.mul_emod_right 2016 k
    · linarith

/-- Dividing a positive difficulty by a ratio clamped into the interval
from 1/4 to 4 stays within a factor of 4 of it. -/
lemma clamp_div_bounds (x D : ℚ) (hD : 0 < D) :
    D / 4 ≤ D / min (max x (1 / 4)) 4
      ∧ D / min (max x (1 / 4)) 4 ≤ D * 4 := by
  set r := min (max x (1 / 4)) 4 with hr
  have h1 : (1 / 4 : ℚ) ≤ r := le_min (le_max_right x (1 / 4)) (by norm_num)
  have h2 : r ≤ 4 := min_le_right _ _
  have h0 : (0 : ℚ) < r := by linarith
  constructor
  · rw [div_le_div_iff₀ (by norm_num) h0]
    nlinarith
  · rw [div_le_iff₀ h0]
    nlinarith

/-- The three clamping branches of calculate_new_difficulty_btc stay
within a factor of 4 of a positive parent difficulty. -/
lemma btc_main_branch_bounds (ratio D d2 : ℚ) (hD : 0 < D)
    (h : (if ratio < 1 / 2 then some (D * (1 / 4))
          else if ratio > 2 then some (D * 4)
          else some (D / ratio)) = some d2) :
    D / 4 ≤ d2 ∧ d2 ≤ D * 4 := by
  split_ifs at h with ha hb
  · cases h
    constructor <;> nlinarith
  · cases h
    constructor <;> nlinarith
  · cases h
    have hlo : (1 / 2 : ℚ) ≤ ratio := not_lt.mp ha
    have hhi : ratio ≤ 2 := not_lt.mp hb
    have h0 : (0 : ℚ) < ratio := by linarith
    constructor
    · rw [div_le_div_iff₀ (by norm_num) h0]
      nlinarith
    · rw [div_le_iff₀ h0]
      nlinarith

/-- C5: whenever either Bitcoin difficulty function (the protocol.rs
one and the main.rs one) returns a value, that value lies in the
interval from parent difficulty / 4 to parent difficulty * 4, and it
equals the parent difficulty whenever the child height is not a
positive multiple of 2016. -/
theorem c5_btc_difficulty_bounds (parent_block : Block)
    (current_time : Int) (env : Env) (s : BlockchainSimulator) (d d2 : ℚ)
    (hpos : 0 < parent_block.difficulty)
    (h1 : BitcoinProtocol.calculate_difficulty parent_block current_time env
      = some d)
    (h2 : calculate_new_difficulty_btc s parent_block = some d2) :
    (parent_block.difficulty / 4 ≤ d ∧ d ≤ parent_block.difficulty * 4)
    ∧ (parent_block.difficulty / 4 ≤ d2 ∧ d2 ≤ parent_block.difficulty * 4)
    ∧ ((¬ ∃ k : Int, 1 ≤ k ∧ parent_block.height + 1 = 2016 * k) →
        d = parent_block.difficulty ∧ d2 = parent_block.difficulty) := by
  by_cases hep : Int.tmod (parent_block.height + 1) 2016 = 0
      ∧ 2016 ≤ parent_block.height + 1
  · simp only [BitcoinProtocol.calculate_difficulty, if_pos hep,
      Option.bind_eq_bind] at h1
    rcases Option.bind_eq_some.mp h1 with ⟨b0, hb0, h1a⟩
    rcases Option.bind_eq_some.mp h1a with ⟨first, hfirst, h1b⟩
    have hd := (Option.some.inj h1b).symm
    simp only [calculate_new_difficulty_btc, if_pos hep,
      Option.bind_eq_bind] at h2
    rcases Option.bind_eq_some.mp h2 with ⟨fid, hfid, h2a⟩
    rcases Option.bind_eq_some.mp h2a with ⟨fb, hfb, h2b⟩
    refine ⟨?_, ?_, ?_⟩
    · rw [hd]
      exact ⟨(clamp_div_bounds _ _ hpos).1, (clamp_div_bounds _ _ hpos).2⟩
    · exact btc_main_branch_bounds _ _ _ hpos h2b
    · intro hne
      exact absurd ((epoch_cond_iff _).mp hep) hne
  · simp only [BitcoinProtocol.calculate_difficulty, if_neg hep] at h1
    simp only [calculate_new_difficulty_btc, if_neg hep] at h2
    have hd := (Option.some.inj h1).symm
    have hd2 := (Option.some.inj h2).symm
    subst hd
    subst hd2
    refine ⟨⟨by linarith, by linarith⟩, ⟨by linarith, by linarith⟩,
      fun _ => ⟨rfl, rfl⟩⟩

/-- Parent block for the c5 witness: height 5, so the child height 6 is
off-epoch. -/
def c5Parent : Block :=
  { height := 5, prev_block_id := some 4, minter := 0, time := 100,
    rand := 0, id := 5, difficulty := 1, mining_time := 0 }

/-- Empty pool for the c5 witness. -/
def c5Env : Env := { blockchain := { blocks := [] }, num_nodes := 0 }

/-- Empty simulator state for the c5 witness. -/
def c5Sim : BlockchainSimulator :=
  { current_round := 0, current_time := 0, delay := 0,
    generation_time := 600000, tie := TieBreakingRule.Longest,
    current_block := [], next_mining_time := [], hashrate := [],
    total_hashrate := 0, end_round := 0, num_nodes := 0, blocks := [],
    rng := [], protocol := Protocol.Bitcoin, csv_enabled := false,
    csv_written_block_heights := [], task_queue := [], next_block_id := 0 }

/-- Witness for c5_btc_difficulty_bounds at an off-epoch parent of
difficulty 1: both functions return 1, inside the bounds. -/
theorem c5_btc_bounds_witness :
    0 < c5Parent.difficulty
    ∧ ((c5Parent.difficulty / 4 ≤ 1 ∧ (1 : ℚ) ≤ c5Parent.difficulty * 4)
      ∧ (c5Parent.difficulty / 4 ≤ 1 ∧ (1 : ℚ) ≤ c5Parent.difficulty * 4)
      ∧ ((¬ ∃ k : Int, 1 ≤ k ∧ c5Parent.height + 1 = 2016 * k) →
          (1 : ℚ) = c5Parent.difficulty ∧ (1 : ℚ) = c5Parent.difficulty)) :=
  ⟨by norm_num [c5Parent],
    c5_btc_difficulty_bounds c5Parent 0 c5Env c5Sim 1 1
      (by norm_num [c5Parent]) rfl rfl⟩

/-- C6: for a parent of height at least 2 with integral nonnegative
difficulty m and a grandparent no younger than it, the Ethereum
difficulty is m + floor(m / 2048) * a with
a = max(1 - (dt / 1000) / 10, -99) and dt the parent-grandparent time
difference (the divisions are floor divisions of nonnegative values,
1000 converting ms to s); for a height-0 parent (child height 1) the
default 2 to the power 32 is returned, and the genesis block itself
(height 0) carries that default difficulty. -/
theorem c6_eth_difficulty :
    (∀ (parent_block grand_parent_block : Block) (current_time : Int)
        (env : Env) (gpid : Nat) (m : Int),
      2 ≤ parent_block.height →
      parent_block.prev_block_id = some gpid →
      env.blockchain.get_block gpid = some grand_parent_block →
      grand_parent_block.time ≤ parent_block.time →
      parent_block.difficulty = (m : ℚ) →
      0 ≤ m →
      EthereumProtocol.calculate_difficulty parent_block current_time env
        = some (((m + ⌊(m : ℚ) / 2048⌋
            * max (1 - (parent_block.time - grand_parent_block.time)
                / 1000 / 10) (-99) : Int) : ℚ)))
    ∧ (∀ (parent_block : Block) (current_time : Int) (env : Env),
        parent_block.height = 0 →
        EthereumProtocol.calculate_difficulty parent_block current_time env
          = some (2 ^ 32))
    ∧ (Block.genesis EthereumProtocol.default_difficulty).difficulty
        = 2 ^ 32 := by
  refine ⟨?_, ?_, rfl⟩
  · intro parent_block grand_parent_block current_time env gpid m
      h2le hprev hgp htime hD hm
    have hne : ¬ parent_block.height = 0 := by omega
    have hcast : (0 : ℚ) ≤ (m : ℚ) := by exact_mod_cast hm
    have e1 : f64_as_i64 parent_block.difficulty = m := by
      rw [hD, f64_as_i64, if_neg (not_lt.mpr hcast), Int.floor_intCast]
    have e2 : f64_as_i64 (parent_block.difficulty / 2048)
        = ⌊(m : ℚ) / 2048⌋ := by
      rw [hD, f64_as_i64, if_neg (not_lt.mpr (by positivity))]
    have e3 : Int.tdiv (parent_block.time - grand_parent_block.time) 1000
        = (parent_block.time - grand_parent_block.time) / 1000 :=
      Int.tdiv_eq_ediv (by omega) (by norm_num)
    have e4 : Int.tdiv
          ((parent_block.time - grand_parent_block.time) / 1000) 10
        = (parent_block.time - grand_parent_block.time) / 1000 / 10 :=
      Int.tdiv_eq_ediv (Int.ediv_nonneg (by omega) (by norm_num))
        (by norm_num)
    simp only [EthereumProtocol.calculate_difficulty, if_neg hne, hprev,
      hgp, Option.bind_eq_bind, Option.some_bind, Option.pure_def,
      e1, e2, e3, e4, add_zero]
  · intro parent_block current_time env h0
    simp only [EthereumProtocol.calculate_difficulty, if_pos h0,
      EthereumProtocol.default_difficulty]

/-- Parent block for the c6 witness: height 2, difficulty 4096, 15
seconds after its parent. -/
def c6Parent : Block :=
  { height := 2, prev_block_id := some 0, minter := 0, time := 15000,
    rand := 0, id := 2, difficulty := ((4096 : Int) : ℚ),
    mining_time := 0 }

/-- Grandparent block for the c6 witness, stored at pool index 0. -/
def c6GrandParent : Block :=
  { height := 1, prev_block_id := none, minter := 0, time := 0,
    rand := 0, id := 0, difficulty := ((4096 : Int) : ℚ),
    mining_time := 0 }

/-- Pool for the c6 witness. -/
def c6Env : Env :=
  { blockchain := { blocks := [c6GrandParent] }, num_nodes := 1 }

/-- Witness for c6_eth_difficulty: dt = 15000 ms gives a = 0 and the
difficulty 4096 + 2 * 0. -/
theorem c6_eth_difficulty_witness :
    EthereumProtocol.calculate_difficulty c6Parent 0 c6Env
      = some (((4096 + ⌊((4096 : Int) : ℚ) / 2048⌋
          * max (1 - (c6Parent.time - c6GrandParent.time) / 1000 / 10)
            (-99) : Int) : ℚ)) :=
  c6_eth_difficulty.1 c6Parent c6GrandParent 0 c6Env 0 4096
    (by decide) rfl rfl (by decide) rfl (by decide)

end BlockchainSim
